import Mathlib

/-!
Formal model of the AILinux real-time analysis gateway (the WebSocket server
in `start.js`, lines 85-622 of the concatenated source).  Python dictionaries
are modelled as association lists over `String` keys; timestamps are integers
(`Int`); the external inference engine (`analyze_log` from `ai_model`) and the
outcome of each `websocket.send` call are supplied by an oracle, since both
are external effects.  All definitions are translated from the source, one
definition per source construct.
-/

namespace AILinux

section AssocList

variable {α : Type}

/-- Lookup in an association list modelling a Python dict (`d.get(k)` /
`k in d`). -/
def lookupKey (k : String) : List (String × α) → Option α
  | [] => Option.none
  | (k2, v) :: rest => if k2 = k then some v else lookupKey k rest

/-- Update/insert modelling Python `d[k] = v`. -/
def setKey (k : String) (v : α) : List (String × α) → List (String × α)
  | [] => [(k, v)]
  | (k2, v2) :: rest => if k2 = k then (k, v) :: rest else (k2, v2) :: setKey k v rest

/-- Deletion modelling Python `del d[k]` (guarded by `k in d` in the source,
so deleting an absent key is a no-op). -/
def delKey (k : String) (l : List (String × α)) : List (String × α) :=
  l.filter fun p => if p.1 = k then false else true

@[simp]
theorem lookupKey_setKey_self (k : String) (v : α) (l : List (String × α)) :
    lookupKey k (setKey k v l) = some v := by
  induction l with
  | nil => simp [lookupKey, setKey]
  | cons hd tl ih =>
      by_cases h : hd.1 = k
      · simp [lookupKey, setKey, h]
      · simpa [lookupKey, setKey, h] using ih

theorem lookupKey_setKey_other {k k2 : String} (h : k2 ≠ k) (v : α)
    (l : List (String × α)) : lookupKey k2 (setKey k v l) = lookupKey k2 l := by
  induction l with
  | nil => simp [lookupKey, setKey, Ne.symm h]
  | cons hd tl ih =>
      by_cases h2 : hd.1 = k
      · subst h2
        simp [lookupKey, setKey, h, Ne.symm h]
      · by_cases h3 : hd.1 = k2 <;> simp [lookupKey, setKey, h2, h3, h, ih]

@[simp]
theorem lookupKey_delKey_self (k : String) (l : List (String × α)) :
    lookupKey k (delKey k l) = Option.none := by
  induction l with
  | nil => simp [lookupKey, delKey]
  | cons hd tl ih =>
      by_cases h : hd.1 = k
      · simpa [delKey, h] using ih
      · simpa [delKey, lookupKey, h] using ih

theorem lookupKey_mem {k : String} {v : α} {l : List (String × α)}
    (h : lookupKey k l = some v) : (k, v) ∈ l := by
  induction l with
  | nil => simp [lookupKey] at h
  | cons hd tl ih =>
      obtain ⟨k2, v2⟩ := hd
      by_cases h2 : k2 = k
      · subst h2
        simp only [lookupKey, if_pos rfl] at h
        injection h with h
        subst h
        exact List.mem_cons_self _ _
      · simp only [lookupKey, if_neg h2] at h
        exact List.mem_cons_of_mem _ (ih h)

end AssocList

/-! ### RateLimiter (`connection_handler`, source lines 410-426)

`client_rate_limits` maps a client id to the timestamp of the last message
that was accepted by the rate gate. -/

/-- State of `client_rate_limits`. -/
abbrev RateState := List (String × Int)

/-- The rate-limit gate from the head of the read loop: reject (leaving the
state untouched) when an entry exists and `now - last < interval`; otherwise
accept and record `now` (source lines 413-426). -/
def rate_gate (interval : Int) (st : RateState) (cid : String) (now : Int) :
    Bool × RateState :=
  match lookupKey cid st with
  | some last =>
      if now - last < interval then (false, st)
      else (true, setKey cid now st)
  | Option.none => (true, setKey cid now st)

/-- The timestamps of the messages of client `cid` accepted by the gate while
processing a trace of `(client, timestamp)` messages in order. -/
def run_accepts (interval : Int) (cid : String) :
    RateState → List (String × Int) → List Int
  | _, [] => []
  | st, (c, t) :: rest =>
      let r := rate_gate interval st c t
      if r.1 = true ∧ c = cid then t :: run_accepts interval cid r.2 rest
      else run_accepts interval cid r.2 rest

theorem run_accepts_chain_aux (interval : Int) (cid : String)
    (tr : List (String × Int)) :
    ∀ st : RateState,
      List.Chain' (fun a b => interval ≤ b - a)
        ((lookupKey cid st).toList ++ run_accepts interval cid st tr) := by
  induction tr with
  | nil =>
      intro st
      cases h : lookupKey cid st <;> simp [run_accepts]
  | cons p rest ih =>
      intro st
      obtain ⟨c, t⟩ := p
      by_cases hc : c = cid
      · subst hc
        cases hl : lookupKey c st with
        | none =>
            have hst : lookupKey c (setKey c t st) = some t := by simp
            have := ih (setKey c t st)
            rw [hst] at this
            simpa [run_accepts, rate_gate, hl] using this
        | some last =>
            by_cases hlt : t - last < interval
            · have := ih st
              rw [hl] at this
              simp only [run_accepts, rate_gate, hl, if_pos hlt]
              simpa [hl] using this
            · have hst : lookupKey c (setKey c t st) = some t := by simp
              have htail := ih (setKey c t st)
              rw [hst] at htail
              simp only [run_accepts, rate_gate, hl, if_neg hlt]
              simp only [hl, Option.toList_some, List.singleton_append]
              refine List.chain'_cons.mpr ⟨le_of_not_lt hlt, ?_⟩
              simpa using htail
      · cases hl : lookupKey c st with
        | none =>
            have hpres : lookupKey cid (setKey c t st) = lookupKey cid st :=
              lookupKey_setKey_other (fun h => hc h.symm) t st
            have := ih (setKey c t st)
            rw [hpres] at this
            simpa [run_accepts, rate_gate, hl, hc] using this
        | some last =>
            by_cases hlt : t - last < interval
            · have := ih st
              simpa [run_accepts, rate_gate, hl, hlt, hc] using this
            · have hpres : lookupKey cid (setKey c t st) = lookupKey cid st :=
              lookupKey_setKey_other (fun h => hc h.symm) t st
              have := ih (setKey c t st)
              rw [hpres] at this
              simpa [run_accepts, rate_gate, hl, hlt, hc] using this

theorem run_accepts_chain (interval : Int) (cid : String) (st : RateState)
    (tr : List (String × Int)) :
    List.Chain' (fun a b => interval ≤ b - a) (run_accepts interval cid st tr) := by
  have h := run_accepts_chain_aux interval cid tr st
  cases hl : lookupKey cid st with
  | none => simpa [hl] using h
  | some last =>
      rw [hl] at h
      simp only [Option.toList_some, List.singleton_append] at h
      exact h.tail

/-! ### Read loop of `connection_handler` (source lines 410-441)

One iteration of the post-authentication message loop: first the rate-limit
check (lines 414-423), then the rate-state update (line 426), then the
message-size check (lines 430-437), then parse/handle. -/

/-- Configuration of the read loop: `RATE_LIMIT_INTERVAL` and
`MAX_MESSAGE_SIZE`. -/
structure LoopConfig where
  interval : Int
  maxMessageSize : Nat
deriving DecidableEq

/-- Outcome of one read-loop iteration for one inbound message. -/
inductive LoopReply where
  /-- error code 429, `continue` -/
  | rateLimited
  /-- error code 413, `continue` -/
  | tooLarge
  /-- the message reaches `json.loads` / `handle_message` -/
  | handled
deriving DecidableEq

/-- One iteration of the `async for message in websocket` loop, for a message
of length `msgLen` arriving at time `now` (source lines 410-441). -/
def loop_iteration (cfg : LoopConfig) (st : RateState) (cid : String)
    (now : Int) (msgLen : Nat) : LoopReply × RateState :=
  let r := rate_gate cfg.interval st cid now
  if r.1 = true then
    if msgLen > cfg.maxMessageSize then (LoopReply.tooLarge, r.2)
    else (LoopReply.handled, r.2)
  else (LoopReply.rateLimited, r.2)

/-! ### `handle_message` (source lines 204-282)

Only the fields that `handle_message` reads are modelled.  A Python
`message_data.get(k, d)` on a possibly-missing key becomes `Option.getD`.
The `request_id` produced by `uuid.uuid4()` is passed in as a parameter. -/

/-- The inbound message fields read by `handle_message`. -/
structure MessageData where
  type : String
  log : Option String
  model : Option String
  instruction : Option String
deriving DecidableEq

/-- An outbound JSON message; only the fields the claims inspect are kept.
A field that the source does not put into the payload is `Option.none`. -/
structure Reply where
  type : String
  message : Option String
  code : Option Nat
  request_id : Option String
deriving DecidableEq

/-- The argument bundle of a dispatched `process_log_analysis` task
(source lines 251-253). -/
structure JobRequest where
  request_id : String
  log_text : String
  model_name : String
  instruction : Option String
deriving DecidableEq

/-- `handle_message` (source lines 204-282): returns the replies sent on the
socket and the analysis task created, if any.  The `ping`, `get_models` and
`server_status` branches only reply; the `analyze_log` branch (lines 226-253)
validates the log text, acknowledges, and dispatches a task. -/
def handle_message (request_id : String) (md : MessageData) :
    List Reply × Option JobRequest :=
  if md.type = "ping" then
    ([⟨"pong", Option.none, Option.none, Option.none⟩], Option.none)
  else if md.type = "analyze_log" then
    let log_text := md.log.getD ""
    let model_name := md.model.getD "gpt4all"
    if log_text = "" then
      ([⟨"error", some "No log text provided", some 400, Option.none⟩], Option.none)
    else
      ([⟨"request_received",
          some "Log analysis request received and being processed",
          Option.none, some request_id⟩],
        some ⟨request_id, log_text, model_name, md.instruction⟩)
  else if md.type = "get_models" then
    ([⟨"models_info", Option.none, Option.none, Option.none⟩], Option.none)
  else if md.type = "server_status" then
    ([⟨"server_status", Option.none, Option.none, Option.none⟩], Option.none)
  else
    ([⟨"error", some ("Unknown message type: " ++ md.type), some 400,
        Option.none⟩], Option.none)

/-! ### `process_log_analysis` (source lines 285-365)

The entry of `active_sessions` for one request.  Fields mirror the dict the
source builds at lines 300-305 and mutates at lines 325-327 and 356-359. -/

/-- One `active_sessions` entry. -/
structure Session where
  client_id : String
  start_time : Int
  model : String
  status : String
  processing_time : Option Int
  completed_at : Option Int
  error : Option String
deriving DecidableEq

/-- The job tracker `active_sessions`. -/
abbrev Tracker := List (String × Session)

/-- External effects of one job: whether each `websocket.send` succeeds and
what the inference engine `analyze_log` returns (`Except.error` when the call
raises). -/
structure JobOracle where
  statusSendOk : Bool
  analyzeResult : Except String String
  resultSendOk : Bool
  errorSendOk : Bool

/-- Observable events of one `process_log_analysis` run, in order. -/
inductive JobEvent where
  /-- the semaphore was acquired (`async with analysis_semaphore` entry) -/
  | acquired
  /-- `active_sessions[request_id]["status"]` was written -/
  | statusSet (status : String)
  /-- the `analysis_status` message was sent (line 308) -/
  | sentStatus
  /-- `analyze_log` returned normally (line 317) -/
  | analyzed
  /-- `analyze_log` raised (line 317) -/
  | analyzeFailed
  /-- the `analysis_result` message was sent (line 330) -/
  | sentResult
  /-- the error message was sent (line 346) -/
  | sentError
  /-- sending the error message itself failed and was swallowed (line 352) -/
  | errorSendFailed
  /-- `asyncio.sleep` in the `finally` block (line 363) -/
  | slept (secs : Nat)
  /-- the semaphore was released (`async with` exit) -/
  | released
deriving DecidableEq

/-- The `except Exception` handler of `process_log_analysis` (source lines
340-359): best-effort error send (its own failure is swallowed), then, if the
session entry exists, status becomes `"error"` with the exception text and a
completion timestamp. -/
def job_except (o : JobOracle) (request_id : String) (e : String) (tEnd : Int)
    (s : Tracker) (evs : List JobEvent) : Tracker × List JobEvent :=
  let evs1 := evs ++
    [if o.errorSendOk then JobEvent.sentError else JobEvent.errorSendFailed]
  match lookupKey request_id s with
  | some sess =>
      (setKey request_id
        ⟨sess.client_id, sess.start_time, sess.model, "error",
          sess.processing_time, some tEnd, some e⟩ s,
       evs1 ++ [JobEvent.statusSet "error"])
  | Option.none => (s, evs1)

/-- The `try`/`except` body of `process_log_analysis` (source lines 298-359),
run while the semaphore is held: track the session as `"processing"`, send the
status update, call the inference engine, mark the session `"completed"` and
send the result; any raise lands in `job_except`. -/
def job_core (o : JobOracle) (client_id request_id model_name : String)
    (tStart tEnd : Int) (sessions : Tracker) : Tracker × List JobEvent :=
  let s0 := setKey request_id
    ⟨client_id, tStart, model_name, "processing", Option.none, Option.none,
      Option.none⟩ sessions
  let evs0 := [JobEvent.acquired, JobEvent.statusSet "processing"]
  if o.statusSendOk then
    let evs1 := evs0 ++ [JobEvent.sentStatus]
    match o.analyzeResult with
    | Except.ok _result =>
        let s1 := match lookupKey request_id s0 with
          | some sess =>
              setKey request_id
                ⟨sess.client_id, sess.start_time, sess.model, "completed",
                  some (tEnd - tStart), some tEnd, sess.error⟩ s0
          | Option.none => s0
        let evs2 := evs1 ++ [JobEvent.analyzed, JobEvent.statusSet "completed"]
        if o.resultSendOk then (s1, evs2 ++ [JobEvent.sentResult])
        else job_except o request_id "connection closed" tEnd s1 evs2
    | Except.error e =>
        job_except o request_id e tEnd s0 (evs1 ++ [JobEvent.analyzeFailed])
  else
    job_except o request_id "connection closed" tEnd s0 evs0

/-- The `finally` block (source lines 361-365) and the `async with` exit:
sleep five minutes, delete the session entry, release the semaphore. -/
def job_finally (request_id : String) (r : Tracker × List JobEvent) :
    Tracker × List JobEvent :=
  (delKey request_id r.1, r.2 ++ [JobEvent.slept 300, JobEvent.released])

/-- The whole of `process_log_analysis` (source lines 285-365), from
semaphore acquisition to release. -/
def process_log_analysis (o : JobOracle) (client_id request_id model_name : String)
    (tStart tEnd : Int) (sessions : Tracker) : Tracker × List JobEvent :=
  job_finally request_id
    (job_core o client_id request_id model_name tStart tEnd sessions)

/-- The tracker statuses a run wrote for its session, in order. -/
def statusTrace (evs : List JobEvent) : List String :=
  evs.filterMap fun e =>
    match e with
    | JobEvent.statusSet st => some st
    | _ => Option.none

/-! ### `periodic_cleanup` session sweep (source lines 530-538)

The reaper deletes every session whose status is terminal and whose
`start_time` is more than 3600 seconds before `now`. -/

/-- The session sweep of `periodic_cleanup`. -/
def cleanup_sessions (now : Int) (sessions : Tracker) : Tracker :=
  sessions.filter fun p =>
    if (p.2.status = "completed" ∨ p.2.status = "error") ∧
        now - p.2.start_time > 3600 then false else true

/-! ### `heartbeat_sender` and `authenticate_client` (source lines 152-201
and 472-508)

`connected_clients` values are Python dicts; the claims only need which keys
`authenticate_client` stores and how `heartbeat_sender` reads them, so the
dict is modelled as an association list of `PyValue`s. -/

/-- A Python value stored in a `connected_clients` entry. -/
inductive PyValue where
  | str (s : String)
  | num (n : Int)
  | none
deriving DecidableEq

/-- The `client_info` dict built by `authenticate_client` (source lines
179-187): exactly these seven keys are stored. -/
def authenticate_client_info (client_id remote_address : String) (now : Int)
    (user_agent client_type version : String) : List (String × PyValue) :=
  [("id", PyValue.str client_id),
   ("remote_address", PyValue.str remote_address),
   ("connected_at", PyValue.num now),
   ("last_activity", PyValue.num now),
   ("user_agent", PyValue.str user_agent),
   ("client_type", PyValue.str client_type),
   ("version", PyValue.str version)]

/-- Python truthiness of a stored value, for `client_info["websocket"]`. -/
def truthy : PyValue → Bool
  | PyValue.str s => s ≠ ""
  | PyValue.num n => n ≠ 0
  | PyValue.none => false

/-- Whether `heartbeat_sender` sends a heartbeat to one client at
`heartbeat_time` (source lines 484-498): the client must be inactive for more
than 30 seconds and `client_info` must hold a truthy `"websocket"` entry. -/
def heartbeat_should_send (heartbeat_time : Int)
    (info : List (String × PyValue)) : Bool :=
  let last := match lookupKey "last_activity" info with
    | some (PyValue.num t) => t
    | _ => 0
  if heartbeat_time - last > 30 then
    match lookupKey "websocket" info with
    | some v => truthy v
    | Option.none => false
  else false

/-! ### Concurrency model of the admission semaphore

`main` creates `analysis_semaphore = asyncio.Semaphore(MAX_CONCURRENT_ANALYSES)`
(source lines 558-559) and every `process_log_analysis` task wraps its whole
body in `async with analysis_semaphore` (line 297).  Each dispatched job is a
state machine: it waits for the semaphore, then runs its `try`/`except` body
(tracker status `"processing"`, the Running state), then sleeps through the
`finally` block with the session already terminal, then releases.  The
semaphore itself is a counter of free slots, decremented on acquisition (only
possible when positive) and incremented on release. -/

/-- Phase of one dispatched `process_log_analysis` task. -/
inductive Phase where
  /-- created by `asyncio.create_task`, blocked at `async with` entry -/
  | waiting
  /-- holding a slot, session status `"processing"` (Running) -/
  | working
  /-- holding a slot, session terminal, inside the `finally` sleep -/
  | retained
  /-- `async with` exited, slot released -/
  | done
deriving DecidableEq

/-- Whether a phase holds a semaphore slot. -/
def isHolding : Phase → Bool
  | Phase.working => true
  | Phase.retained => true
  | _ => false

/-- Whether a phase is the Running state (tracker status `"processing"`). -/
def isRunning : Phase → Bool
  | Phase.working => true
  | _ => false

/-- Global scheduler state: free semaphore slots and the phase of every
dispatched job. -/
structure SchedState where
  semFree : Nat
  jobs : List Phase
deriving DecidableEq

/-- Number of jobs currently holding a slot. -/
def holdingCount (s : SchedState) : Nat := s.jobs.countP isHolding

/-- Number of jobs currently in the Running state. -/
def runningCount (s : SchedState) : Nat := s.jobs.countP isRunning

/-- Interleaving steps of the gateway, as constrained by
`asyncio.Semaphore`: acquisition requires a free slot; the body moves from
Running to terminal; release (the `async with` exit) happens only from the
terminal `retained` phase and frees the slot. -/
inductive SchedStep (s : SchedState) : SchedState → Prop
  | acquire (i k : Nat) :
      s.jobs.get? i = some Phase.waiting → s.semFree = k + 1 →
      SchedStep s ⟨k, s.jobs.set i Phase.working⟩
  | finish (i : Nat) :
      s.jobs.get? i = some Phase.working →
      SchedStep s ⟨s.semFree, s.jobs.set i Phase.retained⟩
  | release (i : Nat) :
      s.jobs.get? i = some Phase.retained →
      SchedStep s ⟨s.semFree + 1, s.jobs.set i Phase.done⟩

/-- Initial state: `N` free slots (`asyncio.Semaphore(N)`), `k` dispatched
jobs all blocked at the `async with` entry. -/
def initState (N k : Nat) : SchedState := ⟨N, List.replicate k Phase.waiting⟩

/-- States the gateway can reach from `initState N k`. -/
inductive Reachable (N k : Nat) : SchedState → Prop
  | init : Reachable N k (initState N k)
  | step {s t : SchedState} : Reachable N k s → SchedStep s t → Reachable N k t

theorem countP_set (p : Phase → Bool) :
    ∀ (l : List Phase) (i : Nat) (a b : Phase), l.get? i = some a →
      (l.set i b).countP p + (if p a then 1 else 0)
        = l.countP p + (if p b then 1 else 0) := by
  intro l
  induction l with
  | nil => intro i a b h; simp [List.get?] at h
  | cons hd tl ih =>
      intro i a b h
      cases i with
      | zero =>
          simp only [List.get?] at h
          injection h with h
          subst h
          simp [List.set, List.countP_cons]
          omega
      | succ j =>
          simp only [List.get?] at h
          have := ih j a b h
          simp [List.set, List.countP_cons]
          omega

theorem countP_le_of_imp (p q : Phase → Bool) (hpq : ∀ a, p a = true → q a = true) :
    ∀ l : List Phase, l.countP p ≤ l.countP q := by
  intro l
  induction l with
  | nil => simp
  | cons hd tl ih =>
      simp only [List.countP_cons]
      by_cases h : p hd = true
      · simp [h, hpq hd h]; omega
      · simp only [Bool.not_eq_true] at h
        simp [h]
        split <;> omega

theorem countP_replicate_waiting (n : Nat) (p : Phase → Bool)
    (hp : p Phase.waiting = false) :
    (List.replicate n Phase.waiting).countP p = 0 := by
  induction n with
  | zero => simp
  | succ m ih => simp [List.replicate, List.countP_cons, hp, ih]

theorem countP_pos_get (p : Phase → Bool) :
    ∀ l : List Phase, 0 < l.countP p →
      ∃ (i : Nat) (a : Phase), l.get? i = some a ∧ p a = true := by
  intro l
  induction l with
  | nil => simp
  | cons hd tl ih =>
      intro hpos
      by_cases h : p hd = true
      · exact ⟨0, hd, rfl, h⟩
      · simp only [Bool.not_eq_true] at h
        simp [List.countP_cons, h, List.countP_pos_iff] at hpos
        obtain ⟨a, ha, hpa⟩ := hpos
        obtain ⟨i, hi⟩ := List.get?_of_mem ha
        exact ⟨i + 1, a, by simpa [List.get?] using hi, hpa⟩

theorem get_set_other {l : List Phase} {i j : Nat} (h : i ≠ j) (b : Phase) :
    (l.set i b).get? j = l.get? j := by
  induction l generalizing i j with
  | nil => simp [List.set]
  | cons hd tl ih =>
      cases i with
      | zero =>
          cases j with
          | zero => exact absurd rfl h
          | succ j2 => simp [List.set, List.get?]
      | succ i2 =>
          cases j with
          | zero => simp [List.set, List.get?]
          | succ j2 =>
              simp only [List.set, List.get?]
              exact ih (fun he => h (by omega))

/-- Ticket accounting: in every reachable state the free slots plus the held
slots equal the configured maximum, and the number of dispatched jobs is
preserved. -/
theorem sched_invariant (N k : Nat) (s : SchedState) (h : Reachable N k s) :
    s.semFree + holdingCount s = N ∧ s.jobs.length = k := by
  induction h with
  | init =>
      constructor
      · simp [initState, holdingCount,
          countP_replicate_waiting k isHolding rfl]
      · simp [initState]
  | step _ hstep ih =>
      obtain ⟨ihsum, ihlen⟩ := ih
      cases hstep with
      | acquire i k2 hget hsem =>
          have hc := countP_set isHolding _ i Phase.waiting Phase.working hget
          simp [isHolding] at hc
          refine ⟨?_, by simpa using ihlen⟩
          simp only [holdingCount] at ihsum ⊢
          omega
      | finish i hget =>
          have hc := countP_set isHolding _ i Phase.working Phase.retained hget
          simp [isHolding] at hc
          refine ⟨?_, by simpa using ihlen⟩
          simp only [holdingCount] at ihsum ⊢
          omega
      | release i hget =>
          have hc := countP_set isHolding _ i Phase.retained Phase.done hget
          simp [isHolding] at hc
          refine ⟨?_, by simpa using ihlen⟩
          simp only [holdingCount] at ihsum ⊢
          omega

/-- Whether a job event is the semaphore release. -/
def isReleased : JobEvent → Bool
  | JobEvent.released => true
  | _ => false

/-- Whether a job event is the semaphore acquisition. -/
def isAcquired : JobEvent → Bool
  | JobEvent.acquired => true
  | _ => false

/-! ## The claims -/

/-- C1: the number of admission tickets held never exceeds the configured
maximum concurrency `N`: in every reachable state of the gateway, at most `N`
jobs are in Running state (tracker status `"processing"`), free slots plus
held slots always equal `N`, and when all `N` slots are held no waiting job
can become Running in one step — a release (which only a job that has already
completed or failed can perform) must come first. -/
theorem semaphore_bounds_running (N k : Nat) (s : SchedState)
    (h : Reachable N k s) :
    runningCount s ≤ N ∧
    s.semFree + holdingCount s = N ∧
    (holdingCount s = N → ∀ (t : SchedState) (i : Nat), SchedStep s t →
      s.jobs.get? i = some Phase.waiting → t.jobs.get? i ≠ some Phase.working) := by
  have hinv := sched_invariant N k s h
  refine ⟨?_, hinv.1, ?_⟩
  · have hle : runningCount s ≤ holdingCount s :=
      countP_le_of_imp isRunning isHolding
        (by intro a ha; cases a <;> simp_all [isRunning, isHolding]) s.jobs
    omega
  · intro hfull t i hstep hw
    have hsem : s.semFree = 0 := by omega
    cases hstep with
    | acquire j k2 hj hsem2 => omega
    | finish j hj =>
        by_cases hij : j = i
        · subst hij
          rw [hj] at hw
          simp at hw
        · intro hcontra
          rw [get_set_other hij] at hcontra
          rw [hw] at hcontra
          simp at hcontra
    | release j hj =>
        by_cases hij : j = i
        · subst hij
          rw [hj] at hw
          simp at hw
        · intro hcontra
          rw [get_set_other hij] at hcontra
          rw [hw] at hcontra
          simp at hcontra

/-- Witness for C1 at a concrete reachable state: with maximum concurrency 1
and two dispatched jobs, after the first job acquires the slot at most one
job is Running. -/
theorem semaphore_bounds_running_witness :
    runningCount ⟨0, [Phase.working, Phase.waiting]⟩ ≤ 1 :=
  (semaphore_bounds_running 1 2 ⟨0, [Phase.working, Phase.waiting]⟩
    (Reachable.step Reachable.init (SchedStep.acquire 0 0 rfl rfl))).1

/-- C2: the admission ticket is released when the job body exits on every
path — whatever the oracle (status send fails, inference engine raises,
result send fails, error send fails), the event trace of
`process_log_analysis` acquires exactly once, releases exactly once, and ends
with the `finally` sleep followed by the release; moreover a held ticket can
always be handed on (a holder always has an enabled step), so a waiting job
is never blocked forever by a leaked ticket. -/
theorem ticket_always_released :
    (∀ (o : JobOracle) (cid rid m : String) (tS tE : Int) (s : Tracker),
      (process_log_analysis o cid rid m tS tE s).2.countP isReleased = 1 ∧
      (process_log_analysis o cid rid m tS tE s).2.countP isAcquired = 1 ∧
      ∃ pre : List JobEvent,
        (process_log_analysis o cid rid m tS tE s).2
          = pre ++ [JobEvent.slept 300, JobEvent.released]) ∧
    (∀ (N k : Nat) (s : SchedState), Reachable N k s → 0 < holdingCount s →
      ∃ t : SchedState, SchedStep s t) := by
  constructor
  · intro o cid rid m tS tE s
    refine ⟨?_, ?_, ⟨(job_core o cid rid m tS tE s).2, rfl⟩⟩ <;>
    · rcases o with ⟨ss, ar, rs, es⟩
      cases ss <;> cases ar <;> cases rs <;> cases es <;>
        simp [process_log_analysis, job_core, job_except, job_finally,
          isReleased, isAcquired, List.countP_cons, List.countP_append]
  · intro N k s _ hpos
    obtain ⟨i, a, hget, hpa⟩ := countP_pos_get isHolding s.jobs hpos
    cases a with
    | working => exact ⟨_, SchedStep.finish i hget⟩
    | retained => exact ⟨_, SchedStep.release i hget⟩
    | waiting => simp [isHolding] at hpa
    | done => simp [isHolding] at hpa

/-- Witness for C2 at a concrete oracle and a concrete reachable state. -/
theorem ticket_always_released_witness :
    (process_log_analysis ⟨true, Except.ok "ok", true, true⟩ "c" "r" "m" 0 1
      []).2.countP isReleased = 1 ∧
    ∃ t : SchedState, SchedStep ⟨0, [Phase.working, Phase.waiting]⟩ t :=
  ⟨(ticket_always_released.1 ⟨true, Except.ok "ok", true, true⟩ "c" "r" "m"
      0 1 []).1,
   ticket_always_released.2 1 2 ⟨0, [Phase.working, Phase.waiting]⟩
      (Reachable.step Reachable.init (SchedStep.acquire 0 0 rfl rfl))
      (by decide)⟩

/-- C3 (code bug): `heartbeat_sender` only sends a heartbeat when
`client_info` holds a truthy `"websocket"` entry (source line 489), but
`authenticate_client` never stores a `"websocket"` key in `client_info`
(source lines 179-187).  Hence for every client registered by
`authenticate_client` — however stale its `last_activity` — no heartbeat is
ever sent. -/
theorem heartbeat_never_sent (t now : Int) (cid addr ua ct ver : String) :
    lookupKey "websocket" (authenticate_client_info cid addr now ua ct ver)
      = Option.none ∧
    heartbeat_should_send t (authenticate_client_info cid addr now ua ct ver)
      = false := by
  constructor
  · simp [authenticate_client_info, lookupKey]
  · simp [heartbeat_should_send, authenticate_client_info, lookupKey]

/-- C4 counterexample: the read loop consults the rate limiter before the
size check, and updates the rate-limit state before the size check.  With
interval 10 and maximum size 5: a 100-byte message from a client whose last
accepted message was 3 time units ago is answered with the rate-limit error,
not the too-large error; and a 100-byte message from a fresh client is
answered too-large but still records the client's timestamp in the
rate-limit state. -/
theorem oversized_message_hits_rate_limiter_first :
    loop_iteration ⟨10, 5⟩ [("c", 0)] "c" 3 100
      = (LoopReply.rateLimited, [("c", 0)]) ∧
    loop_iteration ⟨10, 5⟩ [] "c" 0 100
      = (LoopReply.tooLarge, [("c", 0)]) := by
  decide

/-- Helper: the rate gate either accepts and stamps `now`, or rejects and
leaves the state unchanged. -/
theorem rate_gate_cases (interval : Int) (st : RateState) (cid : String)
    (now : Int) :
    rate_gate interval st cid now = (true, setKey cid now st) ∨
    rate_gate interval st cid now = (false, st) := by
  unfold rate_gate
  cases h : lookupKey cid st with
  | none => left; rfl
  | some last =>
      by_cases hlt : now - last < interval
      · right; simp [hlt]
      · left; simp [hlt]

/-- C4 amended: for every inbound post-authentication message the handler
first consults the rate limiter — rejecting with the rate-limited error and
leaving the state unchanged — and otherwise records the message timestamp in
the rate-limit state and only then enforces the maximum message size; an
oversized message that passes the rate gate is rejected as too large but has
already updated the rate-limit state. -/
theorem rate_limit_before_size_check (cfg : LoopConfig) (st : RateState)
    (cid : String) (now : Int) (msgLen : Nat) :
    ((rate_gate cfg.interval st cid now).1 = false →
      loop_iteration cfg st cid now msgLen = (LoopReply.rateLimited, st)) ∧
    ((rate_gate cfg.interval st cid now).1 = true →
      (loop_iteration cfg st cid now msgLen).2 = setKey cid now st ∧
      (msgLen > cfg.maxMessageSize →
        (loop_iteration cfg st cid now msgLen).1 = LoopReply.tooLarge) ∧
      (msgLen ≤ cfg.maxMessageSize →
        (loop_iteration cfg st cid now msgLen).1 = LoopReply.handled)) := by
  rcases rate_gate_cases cfg.interval st cid now with hg | hg
  · constructor
    · intro hfalse
      rw [hg] at hfalse
      simp at hfalse
    · intro _
      refine ⟨?_, ?_, ?_⟩
      · by_cases hlen : msgLen > cfg.maxMessageSize <;>
          simp [loop_iteration, hg, hlen]
      · intro hlen; simp [loop_iteration, hg, hlen]
      · intro hlen; simp [loop_iteration, hg, Nat.not_lt.mpr hlen]
  · constructor
    · intro _; simp [loop_iteration, hg]
    · intro htrue
      rw [hg] at htrue
      simp at htrue

/-- Witness for C4 amended at concrete inputs. -/
theorem rate_limit_before_size_check_witness :
    (loop_iteration ⟨10, 5⟩ [("c", 0)] "c" 100 3).1 = LoopReply.handled ∧
    (loop_iteration ⟨10, 5⟩ [("c", 0)] "c" 100 3).2
      = setKey "c" 100 [("c", 0)] ∧
    loop_iteration ⟨10, 5⟩ [("c", 0)] "c" 3 100
      = (LoopReply.rateLimited, [("c", 0)]) :=
  ⟨((rate_limit_before_size_check ⟨10, 5⟩ [("c", 0)] "c" 100 3).2
      (by decide)).2.2 (by decide),
   ((rate_limit_before_size_check ⟨10, 5⟩ [("c", 0)] "c" 100 3).2
      (by decide)).1,
   (rate_limit_before_size_check ⟨10, 5⟩ [("c", 0)] "c" 3 100).1 (by decide)⟩

/-- C5: the rate limiter accepts a message exactly when no prior entry exists
or `now - lastMessageAt >= interval`; on accept it stamps `now`, on reject it
leaves the state untouched; and along any trace of messages, the accepted
messages of one session are pairwise separated by at least the interval. -/
theorem rate_limiter_correct (interval : Int) (st : RateState) (cid : String)
    (now : Int) (tr : List (String × Int)) :
    (lookupKey cid st = Option.none →
      rate_gate interval st cid now = (true, setKey cid now st)) ∧
    (∀ last, lookupKey cid st = some last → now - last < interval →
      rate_gate interval st cid now = (false, st)) ∧
    (∀ last, lookupKey cid st = some last → interval ≤ now - last →
      rate_gate interval st cid now = (true, setKey cid now st)) ∧
    List.Chain' (fun a b => interval ≤ b - a)
      (run_accepts interval cid st tr) := by
  refine ⟨?_, ?_, ?_, run_accepts_chain interval cid st tr⟩
  · intro h; simp [rate_gate, h]
  · intro last h hlt; simp [rate_gate, h, hlt]
  · intro last h hle; simp [rate_gate, h, not_lt.mpr hle]

/-- Witness for C5 at concrete inputs: a second message 5 units after an
accepted one is rejected without a state change, one 15 units after is
accepted, and the accepted timestamps of a concrete trace are chained at
least 10 apart. -/
theorem rate_limiter_correct_witness :
    rate_gate 10 [("c", 0)] "c" 5 = (false, [("c", 0)]) ∧
    rate_gate 10 [("c", 0)] "c" 15 = (true, setKey "c" 15 [("c", 0)]) ∧
    List.Chain' (fun a b => (10 : Int) ≤ b - a)
      (run_accepts 10 "c" [] [("c", 0), ("c", 5), ("c", 20)]) :=
  ⟨(rate_limiter_correct 10 [("c", 0)] "c" 5 []).2.1 0 (by decide) (by decide),
   (rate_limiter_correct 10 [("c", 0)] "c" 15 []).2.2.1 0 (by decide)
     (by decide),
   (rate_limiter_correct 10 [] "c" 0 [("c", 0), ("c", 5), ("c", 20)]).2.2.2⟩

/-- C6 counterexample: a job whose analysis succeeds but whose result send
fails is first marked `"completed"` and then re-marked `"error"` by the
exception handler (source lines 325, 356-357) — a terminal status changes
again, refuting the claim that terminal statuses never change. -/
theorem terminal_status_overwritten :
    statusTrace (job_core ⟨true, Except.ok "analysis", false, true⟩ "c1" "r1"
        "gpt4all" 0 5 []).2
      = ["processing", "completed", "error"] ∧
    lookupKey "r1" (job_core ⟨true, Except.ok "analysis", false, true⟩ "c1"
        "r1" "gpt4all" 0 5 []).1
      = some ⟨"c1", 0, "gpt4all", "error", some 5, some 5,
          some "connection closed"⟩ := by
  decide

/-- C6 amended: a tracked job's status sequence is always `processing`
followed by `completed`, or `processing` followed by `error`, or `processing`,
`completed`, `error` (the last when delivering the result of a successful
analysis fails); it never returns to `processing` and `error` is final, but
`completed` is not — and a job waiting for an admission ticket has no tracker
entry at all (its first recorded status is `processing`). -/
theorem status_trace_shape (o : JobOracle) (cid rid m : String) (tS tE : Int)
    (s : Tracker) :
    statusTrace (process_log_analysis o cid rid m tS tE s).2
        = ["processing", "completed"] ∨
    statusTrace (process_log_analysis o cid rid m tS tE s).2
        = ["processing", "error"] ∨
    statusTrace (process_log_analysis o cid rid m tS tE s).2
        = ["processing", "completed", "error"] := by
  rcases o with ⟨ss, ar, rs, es⟩
  cases ss <;> cases ar <;> cases rs <;> cases es <;>
    simp [process_log_analysis, job_core, job_except, job_finally, statusTrace]

/-- C7 counterexample: when the status-update send fails, the failure is not
swallowed silently — the job's generic exception handler records the job as
`"error"` and the inference engine is never invoked, so the send failure does
affect the job's recorded outcome. -/
theorem status_send_failure_changes_outcome :
    lookupKey "r2" (job_core ⟨false, Except.ok "analysis", true, true⟩ "c2"
        "r2" "m" 0 5 []).1
      = some ⟨"c2", 0, "m", "error", Option.none, some 5,
          some "connection closed"⟩ ∧
    JobEvent.analyzed ∉ (job_core ⟨false, Except.ok "analysis", true, true⟩
        "c2" "r2" "m" 0 5 []).2 := by
  decide

/-- C7 amended: only the error-message push inside the exception handler is
best-effort (its failure is swallowed and the recorded outcome is independent
of it), and a job never touches other jobs' tracker entries; but a failed
status-update or result push raises into the exception handler: the job is
recorded as `"error"` — and after a failed status-update push the analysis is
never run at all. -/
theorem push_failure_semantics (o : JobOracle) (cid rid m : String)
    (tS tE : Int) (s : Tracker) :
    (∀ rid2, rid2 ≠ rid →
      lookupKey rid2 (job_core o cid rid m tS tE s).1 = lookupKey rid2 s) ∧
    ((job_core o cid rid m tS tE s).1
      = (job_core ⟨o.statusSendOk, o.analyzeResult, o.resultSendOk, true⟩
          cid rid m tS tE s).1) ∧
    (o.statusSendOk = false →
      lookupKey rid (job_core o cid rid m tS tE s).1
        = some ⟨cid, tS, m, "error", Option.none, some tE,
            some "connection closed"⟩ ∧
      JobEvent.analyzed ∉ (job_core o cid rid m tS tE s).2) ∧
    (o.statusSendOk = true → o.resultSendOk = false →
      ∀ r : String, o.analyzeResult = Except.ok r →
      lookupKey rid (job_core o cid rid m tS tE s).1
        = some ⟨cid, tS, m, "error", some (tE - tS), some tE,
            some "connection closed"⟩) := by
  rcases o with ⟨ss, ar, rs, es⟩
  refine ⟨?_, ?_, ?_, ?_⟩
  · intro rid2 hne
    cases ss <;> cases ar <;> cases rs <;> cases es <;>
      simp [job_core, job_except, lookupKey_setKey_other hne]
  · cases ss <;> cases ar <;> cases rs <;> cases es <;>
      simp [job_core, job_except]
  · intro hss
    subst hss
    cases ar <;> cases rs <;> cases es <;>
      simp [job_core, job_except]
  · intro hss hrs r har
    subst hss
    subst hrs
    subst har
    cases es <;> simp [job_core, job_except]

/-- Witness for C7 amended at a concrete failing status-update send. -/
theorem push_failure_semantics_witness :
    lookupKey "other" (job_core ⟨false, Except.ok "x", true, true⟩ "c" "r"
        "m" 0 5 [("other", ⟨"c0", 0, "m", "processing", Option.none,
          Option.none, Option.none⟩)]).1
      = lookupKey "other" [("other", ⟨"c0", 0, "m", "processing",
          Option.none, Option.none, Option.none⟩)] ∧
    lookupKey "r" (job_core ⟨false, Except.ok "x", true, true⟩ "c" "r" "m"
        0 5 []).1
      = some ⟨"c", 0, "m", "error", Option.none, some 5,
          some "connection closed"⟩ :=
  ⟨(push_failure_semantics ⟨false, Except.ok "x", true, true⟩ "c" "r" "m" 0 5
      [("other", ⟨"c0", 0, "m", "processing", Option.none, Option.none,
        Option.none⟩)]).1 "other" (by decide),
   ((push_failure_semantics ⟨false, Except.ok "x", true, true⟩ "c" "r" "m"
      0 5 []).2.2.1 rfl).1⟩

/-- C8 counterexample: on an `analyze_log` command with empty log text the
server replies with a bare validation error — `{"type": "error", "message":
"No log text provided", "code": 400}` (source lines 232-238) — that carries
no job id at all, and creates no job; so the failure is not reported against
a specific job id. -/
theorem empty_log_error_carries_no_job_id :
    handle_message "r8" ⟨"analyze_log", some "", Option.none, Option.none⟩
      = ([⟨"error", some "No log text provided", some 400, Option.none⟩],
         Option.none) ∧
    ∀ rep ∈ (handle_message "r8" ⟨"analyze_log", some "", Option.none,
        Option.none⟩).1, rep.request_id = Option.none := by
  decide

/-- C8 amended: on an `analyze_log` command whose log text is empty the
server replies immediately with a validation error (code 400) and creates no
job; since no job exists, the error is not associated with any job id. -/
theorem empty_log_rejected (request_id : String) (md : MessageData)
    (htype : md.type = "analyze_log") (hlog : md.log.getD "" = "") :
    handle_message request_id md
      = ([⟨"error", some "No log text provided", some 400, Option.none⟩],
         Option.none) := by
  simp [handle_message, htype, hlog]

/-- Witness for C8 amended on a message with no log field at all. -/
theorem empty_log_rejected_witness :
    handle_message "w8" ⟨"analyze_log", Option.none, Option.none, Option.none⟩
      = ([⟨"error", some "No log text provided", some 400, Option.none⟩],
         Option.none) :=
  empty_log_rejected "w8"
    ⟨"analyze_log", Option.none, Option.none, Option.none⟩ rfl rfl

/-- C9 counterexample: the reaper measures age from `start_time`, not from
completion, so a long-running job is purged the moment it becomes terminal:
a job submitted at time 0 that completed at time 7000 is removed by the
cleanup sweep at time 7000 — retained for zero seconds after reaching its
terminal state, not for a fixed retention window. -/
theorem reaper_purges_job_at_completion :
    lookupKey "r9" (cleanup_sessions 7000
        [("r9", ⟨"c", 0, "m", "completed", some 7000, some 7000,
          Option.none⟩)])
      = Option.none ∧
    Session.completed_at
        ⟨"c", 0, "m", "completed", some 7000, some 7000, Option.none⟩
      = some 7000 := by
  decide

/-- C9 amended: a terminal job is deleted by its own job body 300 seconds
after reaching the terminal state (the `finally` sleep precedes the deletion
and the ticket release); independently, the reaper sweep removes exactly the
terminal jobs whose submission (`start_time`) is more than 3600 seconds old —
measured from submission, not completion — so after the sweep every surviving
terminal job was submitted at most 3600 seconds ago. -/
theorem terminal_job_retention (now : Int) (sessions : Tracker) (rid : String)
    (sess : Session) (o : JobOracle) (cid m : String) (tS tE : Int)
    (s : Tracker) :
    (lookupKey rid (cleanup_sessions now sessions) = some sess →
      (sess.status = "completed" ∨ sess.status = "error") →
      now - sess.start_time ≤ 3600) ∧
    lookupKey rid (process_log_analysis o cid rid m tS tE s).1
      = Option.none ∧
    ∃ pre : List JobEvent,
      (process_log_analysis o cid rid m tS tE s).2
        = pre ++ [JobEvent.slept 300, JobEvent.released] := by
  refine ⟨?_, ?_, ⟨(job_core o cid rid m tS tE s).2, rfl⟩⟩
  · intro hl hterm
    have hmem := lookupKey_mem hl
    simp only [cleanup_sessions, List.mem_filter] at hmem
    obtain ⟨-, hp⟩ := hmem
    by_cases hc : ((rid, sess).2.status = "completed" ∨
        (rid, sess).2.status = "error") ∧ now - (rid, sess).2.start_time > 3600
    · rw [if_pos hc] at hp
      exact absurd hp (by simp)
    · simp only at hc
      exact le_of_not_lt fun hgt => hc ⟨hterm, hgt⟩
  · simp [process_log_analysis, job_finally]

/-- Witness for C9 amended: a job completed 50 seconds after a submission 100
seconds old survives the sweep, and the theorem bounds its age; a finished
job body has deleted its own entry. -/
theorem terminal_job_retention_witness :
    (100 : Int) - 0 ≤ 3600 ∧
    lookupKey "rw" (process_log_analysis ⟨true, Except.ok "x", true, true⟩
        "c" "rw" "m" 0 50 []).1 = Option.none :=
  ⟨(terminal_job_retention 100
      [("rw", ⟨"c", 0, "m", "completed", some 50, some 50, Option.none⟩)]
      "rw" ⟨"c", 0, "m", "completed", some 50, some 50, Option.none⟩
      ⟨true, Except.ok "x", true, true⟩ "c" "m" 0 50 []).1
      (by decide) (by decide),
   (terminal_job_retention 100
      [("rw", ⟨"c", 0, "m", "completed", some 50, some 50, Option.none⟩)]
      "rw" ⟨"c", 0, "m", "completed", some 50, some 50, Option.none⟩
      ⟨true, Except.ok "x", true, true⟩ "c" "m" 0 50 []).2.1⟩

/-- C10: an `analyze_log` message that omits the model field is not rejected:
with a non-empty log text, `handle_message` acknowledges the request and
dispatches the analysis with the default model name `"gpt4all"`
(source line 229). -/
theorem default_model_used (request_id : String) (md : MessageData)
    (htype : md.type = "analyze_log") (hmodel : md.model = Option.none)
    (hlog : md.log.getD "" ≠ "") :
    handle_message request_id md
      = ([⟨"request_received",
            some "Log analysis request received and being processed",
            Option.none, some request_id⟩],
         some ⟨request_id, md.log.getD "", "gpt4all", md.instruction⟩) := by
  simp [handle_message, htype, hmodel, hlog]

/-- Witness for C10 at a concrete message without a model field. -/
theorem default_model_used_witness :
    handle_message "w10"
        ⟨"analyze_log", some "ERROR disk full", Option.none, Option.none⟩
      = ([⟨"request_received",
            some "Log analysis request received and being processed",
            Option.none, some "w10"⟩],
         some ⟨"w10", "ERROR disk full", "gpt4all", Option.none⟩) :=
  default_model_used "w10"
    ⟨"analyze_log", some "ERROR disk full", Option.none, Option.none⟩
    rfl rfl (by decide)

end AILinux
